import Mathlib

/-!
Verification development for the pypet snippet manager.

Shallow embedding of `pypet/models.py`, `pypet/storage.py`,
`pypet/alias_manager.py` and the parameter-templating engine, with theorems
settling the behavioural claims about normalization, storage CRUD semantics,
ID generation, alias projection and parameter resolution.

Conventions of the embedding:
* Python strings are Lean `String`s; `str.strip` is `pyStrip` (ASCII
  whitespace, as in CPython for ASCII input).
* `datetime` instants are the `DateTime` structure below (the components
  that `strftime("%Y%m%d%H%M%S%f")` renders); `datetime.now` becomes an
  explicit `now : DateTime` argument to every operation that reads the clock.
* The TOML file backing the store is a keyed collection, embedded as an
  insertion-ordered association list `Store`; `dict` assignment/deletion
  become `setStore`/`eraseStore`.
* Fallible operations return `Except`/`Option`; the `try/except` in
  `Storage._load_snippets` becomes a total function on a `FileState` that
  records the parse outcome.
-/

namespace Pypet

/-! ## Generic helpers: Python string and dict primitives -/

/-- ASCII whitespace as recognized by `str.strip` (space, tab, newline,
carriage return, vertical tab, form feed). -/
def pyWhite (c : Char) : Bool :=
  c == ' ' || c == '\t' || c == '\n' || c == '\r' || c == '\x0b' || c == '\x0c'

/-- Drop trailing whitespace characters. -/
def dropTrail (l : List Char) : List Char :=
  (l.reverse.dropWhile pyWhite).reverse

/-- Drop leading and trailing whitespace characters: `str.strip` on a
character list. -/
def stripChars (l : List Char) : List Char :=
  dropTrail (l.dropWhile pyWhite)

/-- Embedding of Python `str.strip()`. -/
def pyStrip (s : String) : String :=
  String.mk (stripChars s.data)

/-- Worker for `dedupFirst`: keep elements not seen before, tracking the
set of seen elements. -/
def dedupFirstAux (seen : List String) : List String → List String
  | [] => []
  | t :: ts =>
    if seen.contains t then dedupFirstAux seen ts
    else t :: dedupFirstAux (t :: seen) ts

/-- Embedding of `dict.fromkeys`-based deduplication: keep the first
occurrence of each element, preserving order. -/
def dedupFirst (l : List String) : List String :=
  dedupFirstAux [] l

/-- Embedding of Python `needle in hay` (substring test) on character
lists. -/
def strContains (needle : List Char) : List Char → Bool
  | [] => needle.isPrefixOf ([] : List Char)
  | c :: t => needle.isPrefixOf (c :: t) || strContains needle t

/-- Lowercase a string, as `str.lower()` (ASCII). -/
def pyLower (s : String) : String :=
  String.mk (s.data.map Char.toLower)

/-! ## Clock instants

`datetime.now(timezone.utc)` readings are embedded as the component tuple
that the code formats and compares. -/

/-- A clock reading: the components of a `datetime` instant. -/
structure DateTime where
  year : Nat
  month : Nat
  day : Nat
  hour : Nat
  minute : Nat
  second : Nat
  usec : Nat
deriving DecidableEq, Repr

/-- Collapse a `DateTime` to a single natural number that orders instants
chronologically (for in-range calendar components). Used to state clock
monotonicity hypotheses. -/
def DateTime.key (d : DateTime) : Nat :=
  (((((d.year * 13 + d.month) * 32 + d.day) * 24 + d.hour) * 60
    + d.minute) * 60 + d.second) * 1000000 + d.usec

/-- Zero-padded decimal rendering of width `w`, as `strftime` pads each
numeric field. -/
def padNum (w n : Nat) : String :=
  let s := toString n
  String.mk (List.replicate (w - s.length) '0') ++ s

/-! ## Data model: `pypet/models.py` -/

/-- The `Snippet` dataclass after `__post_init__` has run: `command`,
`description` and `tags` are normalized and both timestamps are set. -/
structure Snippet where
  command : String
  description : Option String
  tags : List String
  createdAt : DateTime
  updatedAt : DateTime
deriving DecidableEq, Repr

/-- Command normalization in `Snippet.__post_init__`:
`self.command.strip() if self.command else ""`. -/
def cmdNorm (c : String) : String :=
  if c = "" then "" else pyStrip c

/-- Description normalization in `Snippet.__post_init__`:
`self.description.strip() if self.description else None`. -/
def descNorm : Option String → Option String
  | none => none
  | some d => if d = "" then none else some (pyStrip d)

/-- Tag normalization in `Snippet.__post_init__`: when the list is
non-empty, strip each tag, discard falsy/blank entries, then deduplicate
keeping first occurrences (`dict.fromkeys`). -/
def normTags (l : List String) : List String :=
  if l = [] then []
  else dedupFirst (l.filterMap (fun t =>
    if t ≠ "" ∧ pyStrip t ≠ "" then some (pyStrip t) else none))

/-- Constructing a `Snippet`: the dataclass constructor followed by
`__post_init__`. `now` is the clock reading `datetime.now(timezone.utc)`
would return when a timestamp must be generated. -/
def mkSnippet (now : DateTime) (command : String) (description : Option String)
    (tags : Option (List String)) (createdAt updatedAt : Option DateTime) :
    Snippet :=
  let tags0 := tags.getD []
  let createdAt1 := createdAt.getD now
  { command := cmdNorm command
    description := descNorm description
    tags := normTags tags0
    createdAt := createdAt1
    updatedAt := updatedAt.getD createdAt1 }

/-- The dictionary shape a snippet occupies in the TOML file: the fields
written by `Snippet.to_dict` / read by `Snippet.from_dict`. -/
structure SnippetRecord where
  command : String
  description : Option String
  tags : List String
  createdAt : Option DateTime
  updatedAt : Option DateTime
deriving DecidableEq, Repr

/-- Embedding of `Snippet.to_dict`. -/
def toDict (s : Snippet) : SnippetRecord :=
  { command := s.command
    description := s.description
    tags := s.tags
    createdAt := some s.createdAt
    updatedAt := some s.updatedAt }

/-- Embedding of `Snippet.from_dict`: reconstruct a snippet from a stored
record (the constructor runs `__post_init__` again, so `now` is needed for
the case of absent timestamps). -/
def fromDict (now : DateTime) (r : SnippetRecord) : Snippet :=
  mkSnippet now r.command r.description (some r.tags) r.createdAt r.updatedAt

/-- A record is normalized when `__post_init__` fixes its payload fields
and both timestamps are present — the shape `Snippet.to_dict` writes for
snippets that went through construction unchanged. -/
def isNormalizedRecord (r : SnippetRecord) : Bool :=
  cmdNorm r.command == r.command &&
  (match r.description with
   | none => true
   | some d => decide (d ≠ "") && pyStrip d == d) &&
  normTags r.tags == r.tags &&
  r.createdAt.isSome &&
  r.updatedAt.isSome

/-! ## Storage: `pypet/storage.py`

The TOML file's mapping is an insertion-ordered association list with
unique keys, mirroring Python `dict` semantics. Each mutating operation
takes the loaded collection and returns `(result, collection after,
whether _save_snippets ran)`. -/

/-- The persisted keyed collection of snippet records. -/
abbrev Store := List (String × SnippetRecord)

/-- `snippets[id]` lookup / `id in snippets` membership. -/
def lookupStore : Store → String → Option SnippetRecord
  | [], _ => none
  | (k, v) :: rest, i => if k = i then some v else lookupStore rest i

/-- `snippets[id] = data` on a `dict`: replace in place when the key
exists, otherwise append. -/
def setStore : Store → String → SnippetRecord → Store
  | [], i, r => [(i, r)]
  | (k, v) :: rest, i, r =>
    if k = i then (k, r) :: rest else (k, v) :: setStore rest i r

/-- `del snippets[id]` on a `dict`. -/
def eraseStore (st : Store) (i : String) : Store :=
  st.filter (fun kv => kv.1 ≠ i)

/-- ID generation in `Storage.add_snippet`:
`now.strftime("%Y%m%d%H%M%S%f")`. -/
def genId (d : DateTime) : String :=
  padNum 4 d.year ++ padNum 2 d.month ++ padNum 2 d.day ++ padNum 2 d.hour
    ++ padNum 2 d.minute ++ padNum 2 d.second ++ padNum 6 d.usec

/-- Embedding of `Storage.add_snippet`: generate an ID from the clock,
construct a snippet (`tags or []`), store its dictionary, return the ID and
the collection that gets saved. -/
def addSnippet (now : DateTime) (st : Store) (command : String)
    (description : Option String) (tags : Option (List String)) :
    String × Store :=
  let id := genId now
  let s := mkSnippet now command description (some (tags.getD [])) none none
  (id, setStore st id (toDict s))

/-- Embedding of `Storage.get_snippet`: look up the record and rebuild a
`Snippet` from its `command`, `description` and `tags` only — the stored
timestamps are not passed to the constructor. -/
def getSnippet (now : DateTime) (st : Store) (id : String) : Option Snippet :=
  match lookupStore st id with
  | none => none
  | some data =>
    some (mkSnippet now data.command data.description (some data.tags)
      none none)

/-- Embedding of `Storage.list_snippets`: every record through
`Snippet.from_dict`, in file order. -/
def listSnippets (now : DateTime) (st : Store) : List (String × Snippet) :=
  st.map (fun kv => (kv.1, fromDict now kv.2))

/-- One snippet matches a search query (already lowercased): substring of
the command, of the description when present, or of any tag. -/
def snippetMatches (q : String) (s : Snippet) : Bool :=
  strContains q.data (pyLower s.command).data ||
  (match s.description with
   | some d => strContains q.data (pyLower d).data
   | none => false) ||
  s.tags.any (fun t => strContains q.data (pyLower t).data)

/-- Embedding of `Storage.search_snippets`. -/
def searchSnippets (now : DateTime) (st : Store) (query : String) :
    List (String × Snippet) :=
  (listSnippets now st).filter (fun kv => snippetMatches (pyLower query) kv.2)

/-- Embedding of `Storage.update_snippet`: absent ID returns `False`
without saving; otherwise rebuild the snippet via `from_dict`, overwrite
exactly the non-`None` arguments by direct field assignment (no
re-normalization), refresh `updated_at`, store and save. -/
def updateSnippet (now : DateTime) (st : Store) (id : String)
    (command? description? : Option String) (tags? : Option (List String)) :
    Bool × Store × Bool :=
  match lookupStore st id with
  | none => (false, st, false)
  | some data =>
    let s0 := fromDict now data
    let s1 := match command? with
      | some c => { s0 with command := c }
      | none => s0
    let s2 := match description? with
      | some d => { s1 with description := some d }
      | none => s1
    let s3 := match tags? with
      | some t => { s2 with tags := t }
      | none => s2
    let s4 := { s3 with updatedAt := now }
    (true, setStore st id (toDict s4), true)

/-- Embedding of `Storage.delete_snippet`. -/
def deleteSnippet (st : Store) (id : String) : Bool × Store × Bool :=
  match lookupStore st id with
  | none => (false, st, false)
  | some _ => (true, eraseStore st id, true)

/-! ### The backing file and the load path -/

/-- The state of the backing TOML file as the read path observes it: the
file is absent, or present with a given `toml.load` outcome (the parser is
abstracted by its result). -/
inductive FileState where
  | absent
  | present (parsed : Except String Store)
deriving Repr

/-- Embedding of `Storage._load_snippets`: missing file or parse failure
yields the empty collection; otherwise, the parsed mapping. -/
def loadSnippets : FileState → Store
  | .absent => []
  | .present (.error _) => []
  | .present (.ok m) => m

/-- `Storage.get_snippet` from the file. -/
def getSnippetFile (now : DateTime) (fs : FileState) (id : String) :
    Option Snippet :=
  getSnippet now (loadSnippets fs) id

/-- `Storage.list_snippets` from the file. -/
def listSnippetsFile (now : DateTime) (fs : FileState) :
    List (String × Snippet) :=
  listSnippets now (loadSnippets fs)

/-- `Storage.search_snippets` from the file. -/
def searchSnippetsFile (now : DateTime) (fs : FileState) (query : String) :
    List (String × Snippet) :=
  searchSnippets now (loadSnippets fs) query

/-- The load step of `Storage.update_snippet` from the file. -/
def updateSnippetFile (now : DateTime) (fs : FileState) (id : String)
    (command? description? : Option String) (tags? : Option (List String)) :
    Bool × Store × Bool :=
  updateSnippet now (loadSnippets fs) id command? description? tags?

/-- The load step of `Storage.delete_snippet` from the file. -/
def deleteSnippetFile (fs : FileState) (id : String) : Bool × Store × Bool :=
  deleteSnippet (loadSnippets fs) id

/-! ## Parameter templating engine

The repository snapshot under verification ships `models.py` without the
`Parameter` class, the `parameters`/`alias` fields and the
`get_all_parameters`/`apply_parameters` methods, although
`alias_manager.py`, `cli/execution_commands.py` and `tests/test_alias.py`
all call them. Those definitions are therefore modelled from the spec
(sections 4.1 and 3) here. -/

/-- Modelled from the spec: the `Parameter` entity of `models.py` (missing
from the snapshot) — a name with an optional default and description;
a parameter with no default is required. -/
structure Parameter where
  name : String
  default : Option String
  description : Option String
deriving DecidableEq, Repr

/-- Modelled from the spec: the templating-relevant slice of `Snippet`
(missing from the snapshot's `models.py`) — the command template, the
declared parameter list in declaration order, and the optional alias. -/
structure ParamSnippet where
  command : String
  parameters : List Parameter
  aliasName : Option String
deriving DecidableEq, Repr

/-- Placeholder identifiers are alphanumeric/underscore runs. -/
def isIdentChar (c : Char) : Bool :=
  c.isAlpha || c.isDigit || c == '_'

/-- Split a leading identifier run from a character list. -/
def scanIdent : List Char → List Char × List Char
  | [] => ([], [])
  | c :: cs =>
    if isIdentChar c then ((c :: (scanIdent cs).1), (scanIdent cs).2)
    else ([], c :: cs)

/-- Worker for `scanPlaceholders`: the fuel only bounds the recursion
depth (it is seeded with the input length, which one step never
increases), keeping the recursion structural. -/
def scanPlaceholdersAux : Nat → List Char → List String
  | 0, _ => []
  | _ + 1, [] => []
  | fuel + 1, c :: cs =>
    if c = '\x7b' then
      match scanIdent cs with
      | (name, d :: rest) =>
        if d = '\x7d' ∧ name ≠ [] then
          String.mk name :: scanPlaceholdersAux fuel rest
        else scanPlaceholdersAux fuel cs
      | (_, []) => scanPlaceholdersAux fuel cs
    else scanPlaceholdersAux fuel cs

/-- Modelled from the spec: placeholder discovery — every well-formed
`\x7bname\x7d` token in the command, in occurrence order (possibly with
repeats); malformed braces are literal text. -/
def scanPlaceholders (l : List Char) : List String :=
  scanPlaceholdersAux l.length l

/-- Assoc-list lookup for string-keyed mappings (`dict.get`). -/
def lookupVal : List (String × String) → String → Option String
  | [], _ => none
  | (k, v) :: rest, n => if k = n then some v else lookupVal rest n

/-- Modelled from the spec: `Snippet.get_all_parameters` — declared
parameters first in declared order, then placeholder-derived names not
declared, as bare required parameters, in first-occurrence order. -/
def getAllParameters (s : ParamSnippet) : List Parameter :=
  s.parameters ++
    ((dedupFirst (scanPlaceholders s.command.data)).filter
      (fun n => ¬ s.parameters.any (fun p => p.name = n))).map
      (fun n => { name := n, default := none, description := none })

/-- Typed failures of the templating engine. -/
inductive PypetError where
  | missingRequiredParameter (name : String)
deriving DecidableEq, Repr

/-- Modelled from the spec: resolve one parameter — the supplied value if
present and non-empty, else the default if present, else nothing. -/
def resolveParam (values : List (String × String)) (p : Parameter) :
    Option String :=
  match lookupVal values p.name with
  | some v => if v = "" then p.default else some v
  | none => p.default

/-- Resolve every parameter in order, failing on the first one with no
value and no default. -/
def resolveAll (values : List (String × String)) :
    List Parameter → Except PypetError (List (String × String))
  | [] => .ok []
  | p :: ps =>
    match resolveParam values p with
    | some v => (resolveAll values ps).map (fun m => (p.name, v) :: m)
    | none => .error (.missingRequiredParameter p.name)

/-- Worker for `substPlaceholders`, fuelled like `scanPlaceholdersAux`. -/
def substPlaceholdersAux (resolved : List (String × String)) :
    Nat → List Char → List Char
  | 0, l => l
  | _ + 1, [] => []
  | fuel + 1, c :: cs =>
    if c = '\x7b' then
      match scanIdent cs with
      | (name, d :: rest) =>
        if d = '\x7d' ∧ name ≠ [] then
          match lookupVal resolved (String.mk name) with
          | some v => v.data ++ substPlaceholdersAux resolved fuel rest
          | none =>
            '\x7b' :: name ++ '\x7d' :: substPlaceholdersAux resolved fuel rest
        else c :: substPlaceholdersAux resolved fuel cs
      | (_, []) => c :: substPlaceholdersAux resolved fuel cs
    else c :: substPlaceholdersAux resolved fuel cs

/-- Modelled from the spec: substitute every resolved `\x7bname\x7d`
occurrence with its value; unresolved or malformed braces stay literal. -/
def substPlaceholders (resolved : List (String × String))
    (l : List Char) : List Char :=
  substPlaceholdersAux resolved l.length l

/-- Modelled from the spec: `Snippet.apply_parameters` — resolve every
parameter from `get_all_parameters`, failing with a typed error naming the
first missing required one; on success substitute all placeholders
textually. Extra supplied names are ignored. -/
def applyParameters (s : ParamSnippet) (values : List (String × String)) :
    Except PypetError String :=
  (resolveAll values (getAllParameters s)).map
    (fun m => String.mk (substPlaceholders m s.command.data))

/-! ## Alias projection: `pypet/alias_manager.py`

`AliasManager._generate_alias_definition` quotes the command with
`shlex.quote`. The quoting function is embedded from the CPython `shlex`
source; a small POSIX word evaluator below gives meaning to "invoking the
alias reproduces the command byte-for-byte". -/

/-- The characters `shlex.quote` treats as safe (`_find_unsafe`: anything
outside ASCII word characters and `@ % + = : , .` slash and dash is
unsafe). -/
def shlexSafeChar (c : Char) : Bool :=
  c.isAlpha || c.isDigit || c == '_' || c == '@' || c == '%' || c == '+' ||
  c == '=' || c == ':' || c == ',' || c == '.' || c == '/' || c == '-'

/-- `s.replace("'", "'\"'\"'")` on a character list: each single quote
becomes close-quote, double-quoted quote, reopen-quote. -/
def escQuote : List Char → List Char
  | [] => []
  | c :: cs =>
    if c = '\x27' then '\x27' :: '"' :: '\x27' :: '"' :: '\x27' :: escQuote cs
    else c :: escQuote cs

/-- Embedding of `shlex.quote`: empty string becomes `\x27\x27`, all-safe
strings pass through, anything else is single-quoted with embedded quotes
escaped. -/
def shlexQuote (s : String) : String :=
  if s = "" then "\x27\x27"
  else if s.data.all shlexSafeChar then s
  else String.mk ('\x27' :: escQuote s.data ++ ['\x27'])

/-- Characters a POSIX shell gives special meaning when unquoted
(whitespace, quoting and escape characters, operators, expansions, globs,
comments, tilde). -/
def specialChar (c : Char) : Bool :=
  c == ' ' || c == '\t' || c == '\r' || c == '\n' || c == '\x27' ||
  c == '"' || c == '\\' || c == '$' || c == '`' || c == '|' || c == '&' ||
  c == ';' || c == '<' || c == '>' || c == '(' || c == ')' || c == '*' ||
  c == '?' || c == '[' || c == '#' || c == '~'

mutual

/-- Evaluate a single shell word, unquoted context: quotes open quoted
segments, special characters are rejected (they would not contribute their
literal byte to a single word), ordinary characters stand for themselves. -/
def evalPlain : List Char → Option (List Char)
  | [] => some []
  | c :: cs =>
    if c = '\x27' then evalSingle cs
    else if c = '"' then evalDouble cs
    else if specialChar c then none
    else (evalPlain cs).map (fun t => c :: t)

/-- Inside single quotes: everything is literal until the closing quote;
an unterminated quote fails. -/
def evalSingle : List Char → Option (List Char)
  | [] => none
  | c :: cs =>
    if c = '\x27' then evalPlain cs
    else (evalSingle cs).map (fun t => c :: t)

/-- Inside double quotes: literal until the closing double quote, except
the characters the shell still interprets there, which are rejected. -/
def evalDouble : List Char → Option (List Char)
  | [] => none
  | c :: cs =>
    if c = '"' then evalPlain cs
    else if c = '$' || c = '`' || c = '\\' then none
    else (evalDouble cs).map (fun t => c :: t)

end

/-- Embedding of `AliasManager._generate_alias_definition`: with no
parameters (via `get_all_parameters`) a simple alias with the
`shlex.quote`d command; otherwise a shell function forwarding to
`pypet exec`. -/
def generateAliasDefinition (aliasName snippetId : String)
    (s : ParamSnippet) : String :=
  if getAllParameters s = [] then
    "alias " ++ aliasName ++ "=" ++ shlexQuote s.command
  else
    aliasName ++ "() \x7b\n    pypet exec " ++ snippetId ++ " \"$@\"\n\x7d"

/-! ## Concrete instants and stores used as witnesses -/

/-- A sample clock reading. -/
def dt0 : DateTime := ⟨2026, 1, 1, 0, 0, 0, 0⟩

/-- One microsecond after `dt0`. -/
def dt1 : DateTime := ⟨2026, 1, 1, 0, 0, 0, 1⟩

/-- Two microseconds after `dt0`. -/
def dt2 : DateTime := ⟨2026, 1, 1, 0, 0, 0, 2⟩

/-- A normalized record, as `add_snippet` would write it. -/
def recNorm : SnippetRecord := ⟨"ls", none, ["x"], some dt0, some dt0⟩

/-- A one-snippet store holding `recNorm` under ID `"i"`. -/
def demoStore : Store := [("i", recNorm)]

/-- An un-normalized record — exactly what `update_snippet` persists after
overwriting `recNorm` with a raw command and a raw tags list (see the C6
counterexample, which derives it through `updateSnippet` itself). -/
def recRaw : SnippetRecord :=
  ⟨" ls ", none, ["a", "a", "b"], some dt0, some dt0⟩

/-! ## Supporting lemmas -/

theorem lookupStore_setStore_self (st : Store) (i : String) (r : SnippetRecord) :
    lookupStore (setStore st i r) i = some r := by
  induction st with
  | nil => simp [setStore, lookupStore]
  | cons kv rest ih =>
    obtain ⟨k, v⟩ := kv
    by_cases hk : k = i
    · simp [setStore, lookupStore, hk]
    · simp [setStore, lookupStore, hk, ih]

theorem dropWhile_dropWhile (p : Char → Bool) (l : List Char) :
    (l.dropWhile p).dropWhile p = l.dropWhile p := by
  induction l with
  | nil => rfl
  | cons c cs ih =>
    by_cases h : p c
    · simp [List.dropWhile_cons, h, ih]
    · simp [List.dropWhile_cons, h]

theorem dropWhile_of_prefix_fix (p : Char → Bool) {s t : List Char}
    (ht : t.dropWhile p = t) (hp : s <+: t) : s.dropWhile p = s := by
  obtain ⟨u, rfl⟩ := hp
  cases s with
  | nil => rfl
  | cons a s' =>
    rw [List.cons_append, List.dropWhile_cons] at ht
    by_cases ha : p a
    · exfalso
      rw [if_pos ha] at ht
      have hle := (List.dropWhile_suffix (l := s' ++ u) p).length_le
      rw [ht] at hle
      simp at hle
    · rw [List.dropWhile_cons, if_neg ha]

theorem stripChars_noLeading (l : List Char) :
    (stripChars l).dropWhile pyWhite = stripChars l := by
  unfold stripChars dropTrail
  set m := l.dropWhile pyWhite with hm
  have hmfix : m.dropWhile pyWhite = m := by
    rw [hm]; exact dropWhile_dropWhile pyWhite l
  have hsuff : m.reverse.dropWhile pyWhite <:+ m.reverse :=
    List.dropWhile_suffix pyWhite
  have hpre : (m.reverse.dropWhile pyWhite).reverse <+: m := by
    have := List.reverse_prefix.mpr hsuff
    rwa [List.reverse_reverse] at this
  exact dropWhile_of_prefix_fix pyWhite hmfix hpre

theorem dropTrail_stripChars (l : List Char) :
    dropTrail (stripChars l) = stripChars l := by
  unfold stripChars dropTrail
  rw [List.reverse_reverse, dropWhile_dropWhile]

theorem stripChars_idem (l : List Char) :
    stripChars (stripChars l) = stripChars l := by
  have h1 : stripChars (stripChars l)
      = dropTrail ((stripChars l).dropWhile pyWhite) := rfl
  rw [h1, stripChars_noLeading, dropTrail_stripChars]

theorem pyStrip_idem (s : String) : pyStrip (pyStrip s) = pyStrip s := by
  unfold pyStrip
  rw [stripChars_idem]

theorem fromDict_normalized (now : DateTime) (r : SnippetRecord)
    (h : isNormalizedRecord r = true) :
    ∃ cu uu, r.createdAt = some cu ∧ r.updatedAt = some uu ∧
      fromDict now r = ⟨r.command, r.description, r.tags, cu, uu⟩ := by
  unfold isNormalizedRecord at h
  simp only [Bool.and_eq_true, beq_iff_eq, Option.isSome_iff_exists] at h
  obtain ⟨⟨⟨⟨hc, hd⟩, ht⟩, cu, hcu⟩, uu, huu⟩ := h
  refine ⟨cu, uu, hcu, huu, ?_⟩
  have hdesc : descNorm r.description = r.description := by
    cases hr : r.description with
    | none => rfl
    | some d =>
      rw [hr] at hd
      simp only [decide_eq_true_eq, Bool.and_eq_true, beq_iff_eq] at hd
      simp [descNorm, hd.1, hd.2]
  unfold fromDict mkSnippet
  simp [hcu, huu, hc, ht, hdesc]

theorem resolveParam_none_default (values : List (String × String))
    (p : Parameter) (h : resolveParam values p = none) : p.default = none := by
  unfold resolveParam at h
  cases hv : lookupVal values p.name with
  | none => simp only [hv] at h; exact h
  | some v =>
    simp only [hv] at h
    by_cases he : v = ""
    · rw [if_pos he] at h; exact h
    · rw [if_neg he] at h; cases h

theorem resolveAll_error_of_missing (values : List (String × String)) :
    ∀ (ps : List Parameter) (p : Parameter), p ∈ ps →
      resolveParam values p = none →
      ∃ q ∈ ps, resolveParam values q = none ∧
        resolveAll values ps = .error (.missingRequiredParameter q.name) := by
  intro ps
  induction ps with
  | nil => intro p hp; cases hp
  | cons a as ih =>
    intro p hp hres
    cases ha : resolveParam values a with
    | none =>
      exact ⟨a, List.mem_cons_self a as, ha, by simp [resolveAll, ha]⟩
    | some v =>
      have hp' : p ∈ as := by
        cases hp with
        | head => rw [hres] at ha; cases ha
        | tail _ h => exact h
      obtain ⟨q, hq, hqn, hre⟩ := ih p hp' hres
      exact ⟨q, List.mem_cons_of_mem a hq, hqn, by
        simp [resolveAll, ha, hre, Except.map]⟩

theorem safe_not_special (c : Char) (h : shlexSafeChar c = true) :
    specialChar c = false := by
  cases hc : specialChar c
  · rfl
  · exfalso
    unfold specialChar at hc
    simp only [Bool.or_eq_true, beq_iff_eq, or_assoc] at hc
    rcases hc with rfl|rfl|rfl|rfl|rfl|rfl|rfl|rfl|rfl|rfl|rfl|rfl|rfl|rfl|rfl|rfl|rfl|rfl|rfl|rfl|rfl <;>
      exact absurd h (by decide)

theorem safe_ne_squote (c : Char) (h : shlexSafeChar c = true) : ¬(c = '\x27') := by
  intro hc
  subst hc
  exact absurd h (by decide)

theorem safe_ne_dquote (c : Char) (h : shlexSafeChar c = true) : ¬(c = '"') := by
  intro hc
  subst hc
  exact absurd h (by decide)

theorem evalPlain_cons (c : Char) (cs : List Char) :
    evalPlain (c :: cs)
      = if c = '\x27' then evalSingle cs
        else if c = '"' then evalDouble cs
        else if specialChar c then none
        else (evalPlain cs).map (fun t => c :: t) := by
  rw [evalPlain]

theorem evalSingle_cons (c : Char) (cs : List Char) :
    evalSingle (c :: cs)
      = if c = '\x27' then evalPlain cs
        else (evalSingle cs).map (fun t => c :: t) := by
  rw [evalSingle]

theorem evalDouble_cons (c : Char) (cs : List Char) :
    evalDouble (c :: cs)
      = if c = '"' then evalPlain cs
        else if c = '$' || c = '`' || c = '\\' then none
        else (evalDouble cs).map (fun t => c :: t) := by
  rw [evalDouble]

theorem evalPlain_safe :
    ∀ l : List Char, l.all shlexSafeChar = true → evalPlain l = some l := by
  intro l
  induction l with
  | nil => intro _; rfl
  | cons c cs ih =>
    intro h
    simp only [List.all_cons, Bool.and_eq_true] at h
    rw [evalPlain_cons, if_neg (safe_ne_squote c h.1),
      if_neg (safe_ne_dquote c h.1), safe_not_special c h.1]
    simp [ih h.2]

theorem evalSingle_escQuote :
    ∀ l cs : List Char,
      evalSingle (escQuote l ++ '\x27' :: cs)
        = (evalPlain cs).map (fun t => l ++ t) := by
  intro l
  induction l with
  | nil =>
    intro cs
    unfold escQuote
    rw [List.nil_append, evalSingle_cons, if_pos rfl]
    cases evalPlain cs <;> simp
  | cons c l' ih =>
    intro cs
    by_cases hc : c = '\x27'
    · subst hc
      unfold escQuote
      rw [if_pos rfl]
      simp only [List.cons_append]
      rw [evalSingle_cons, if_pos rfl]
      rw [evalPlain_cons, if_neg (by decide), if_pos rfl]
      rw [evalDouble_cons, if_neg (by decide), if_neg (by decide)]
      rw [evalDouble_cons, if_pos rfl]
      rw [evalPlain_cons, if_pos rfl]
      rw [ih cs]
      cases evalPlain cs <;> simp
    · unfold escQuote
      rw [if_neg hc]
      simp only [List.cons_append]
      rw [evalSingle_cons, if_neg hc]
      rw [ih cs]
      cases evalPlain cs <;> simp

theorem evalPlain_shlexQuote (s : String) :
    evalPlain (shlexQuote s).data = some s.data := by
  unfold shlexQuote
  by_cases hs : s = ""
  · subst hs
    rw [if_pos rfl]
    decide
  · rw [if_neg hs]
    by_cases hsafe : s.data.all shlexSafeChar = true
    · simp only [hsafe, if_true]
      exact evalPlain_safe _ hsafe
    · simp only [hsafe, if_false, Bool.false_eq_true]
      show evalPlain ('\x27' :: (escQuote s.data ++ ['\x27'])) = some s.data
      rw [evalPlain_cons, if_pos rfl]
      have h := evalSingle_escQuote s.data []
      have h0 : evalPlain [] = some [] := by rw [evalPlain]
      rw [h0] at h
      simpa using h

/-! ## Claim theorems -/

/-- C1: for every snippet and values mapping, if some parameter of
`get_all_parameters()` resolves to nothing (no non-empty supplied value
and no default), then `apply_parameters` fails with a typed error naming a
parameter that itself is missing and required, and no string is
returned. -/
theorem applyParameters_missing_required_fails (s : ParamSnippet)
    (values : List (String × String)) (p : Parameter)
    (hp : p ∈ getAllParameters s) (hmiss : resolveParam values p = none) :
    ∃ q ∈ getAllParameters s,
      resolveParam values q = none ∧ q.default = none ∧
      applyParameters s values
        = Except.error (PypetError.missingRequiredParameter q.name) ∧
      ∀ out, applyParameters s values ≠ Except.ok out := by
  obtain ⟨q, hq, hqn, hre⟩ :=
    resolveAll_error_of_missing values (getAllParameters s) p hp hmiss
  refine ⟨q, hq, hqn, resolveParam_none_default values q hqn, ?_, ?_⟩
  · unfold applyParameters
    rw [hre]
    rfl
  · intro out
    unfold applyParameters
    rw [hre]
    intro hcontra
    cases hcontra

/-- Witness for C1 at spec scenario 3: a snippet requiring `host` with no
default, applied to an empty values mapping. -/
theorem applyParameters_missing_required_fails_witness :
    ∃ q ∈ getAllParameters ⟨"ssh \x7bhost\x7d", [], none⟩,
      resolveParam [] q = none ∧ q.default = none ∧
      applyParameters ⟨"ssh \x7bhost\x7d", [], none⟩ []
        = Except.error (PypetError.missingRequiredParameter q.name) ∧
      ∀ out, applyParameters ⟨"ssh \x7bhost\x7d", [], none⟩ [] ≠ Except.ok out :=
  applyParameters_missing_required_fails ⟨"ssh \x7bhost\x7d", [], none⟩ []
    ⟨"host", none, none⟩ (by decide) (by decide)

/-- C2 (code evidence): `add_snippet` at `dt0` then `get_snippet` at `dt1`
returns a snippet whose timestamps were regenerated at read time (`dt1`),
not the timestamps of the normalized snippet constructed at add time
(`dt0`): `get_snippet` does not pass the stored timestamps to the
constructor, so add-then-get is not the identity on `created_at` and
`updated_at`. -/
theorem getSnippet_regenerates_timestamps :
    getSnippet dt1 (addSnippet dt0 [] "ls" none none).2
        (addSnippet dt0 [] "ls" none none).1
      = some (mkSnippet dt1 "ls" none (some []) none none) ∧
    getSnippet dt1 (addSnippet dt0 [] "ls" none none).2
        (addSnippet dt0 [] "ls" none none).1
      ≠ some (mkSnippet dt0 "ls" none (some []) none none) ∧
    (mkSnippet dt0 "ls" none (some []) none none).createdAt = dt0 ∧
    (mkSnippet dt1 "ls" none (some []) none none).createdAt = dt1 ∧
    dt1 ≠ dt0 := by
  decide

/-- C3 (counterexample): updating tags to `["a", "a", "b"]` persists the
record with tags `["a", "a", "b"]` — verbatim, not deduplicated to
`["a", "b"]`. -/
theorem updateSnippet_persists_raw_tags_counterexample :
    (updateSnippet dt1 demoStore "i" none none (some ["a", "a", "b"])).1
      = true ∧
    (lookupStore (updateSnippet dt1 demoStore "i" none none
        (some ["a", "a", "b"])).2.1 "i").map SnippetRecord.tags
      = some ["a", "a", "b"] ∧
    some ["a", "a", "b"] ≠ some (["a", "b"] : List String) := by
  decide

/-- C3 (amended): `update_snippet` stores a supplied tags list verbatim in
the record; because every load re-runs `__post_init__`, a subsequent
`get_snippet` returns the tags normalized. -/
theorem updateSnippet_tags_verbatim_read_normalized (now now2 : DateTime)
    (st : Store) (id : String) (r : SnippetRecord) (ts : List String)
    (hr : lookupStore st id = some r) :
    ∃ st₂, (updateSnippet now st id none none (some ts)).2.1 = st₂ ∧
      (updateSnippet now st id none none (some ts)).1 = true ∧
      ∃ r₂, lookupStore st₂ id = some r₂ ∧ r₂.tags = ts ∧
        (getSnippet now2 st₂ id).map Snippet.tags = some (normTags ts) := by
  unfold updateSnippet
  rw [hr]
  refine ⟨_, rfl, rfl, toDict _, lookupStore_setStore_self .., rfl, ?_⟩
  unfold getSnippet
  rw [lookupStore_setStore_self]
  rfl

/-- Witness for C3's amended theorem at the concrete scenario: tags
`["a", "a", "b"]` are stored verbatim and read back as `["a", "b"]`. -/
theorem updateSnippet_tags_verbatim_read_normalized_witness :
    normTags ["a", "a", "b"] = ["a", "b"] ∧
    ∃ st₂,
      (updateSnippet dt1 demoStore "i" none none (some ["a", "a", "b"])).2.1
        = st₂ ∧
      (updateSnippet dt1 demoStore "i" none none (some ["a", "a", "b"])).1
        = true ∧
      ∃ r₂, lookupStore st₂ "i" = some r₂ ∧ r₂.tags = ["a", "a", "b"] ∧
        (getSnippet dt2 st₂ "i").map Snippet.tags
          = some (normTags ["a", "a", "b"]) :=
  ⟨by decide,
    updateSnippet_tags_verbatim_read_normalized dt1 dt2 demoStore "i" recNorm
      ["a", "a", "b"] (by decide)⟩

/-- C4 (counterexample): constructing a snippet from a whitespace-only
command does not fail — construction is total — and yields the empty
command, so a constructed snippet can have an empty command. -/
theorem emptyCommand_accepted_counterexample :
    (mkSnippet dt0 "   " none (some []) none none).command = "" ∧
    (mkSnippet dt0 "" none (some []) none none).command = "" := by
  decide

/-- C4 (amended): construction never rejects; every constructed snippet's
command is trimmed (a fixed point of `strip`), though possibly empty. -/
theorem snippet_command_strip_fixed (now : DateTime) (c : String)
    (d : Option String) (t : Option (List String))
    (ca ua : Option DateTime) :
    pyStrip (mkSnippet now c d t ca ua).command
      = (mkSnippet now c d t ca ua).command := by
  show pyStrip (cmdNorm c) = cmdNorm c
  unfold cmdNorm
  by_cases hc : c = ""
  · rw [if_pos hc]
    decide
  · rw [if_neg hc]
    exact pyStrip_idem c

/-- C5 (code evidence): two `add_snippet` calls whose clock readings fall
in the same microsecond produce the identical ID, and the second insert
overwrites the first — the store ends with a single record holding the
second command. -/
theorem addSnippet_same_instant_id_collision :
    (addSnippet dt0 [] "a" none none).1
      = (addSnippet dt0 (addSnippet dt0 [] "a" none none).2 "b" none none).1 ∧
    (addSnippet dt0 (addSnippet dt0 [] "a" none none).2 "b" none none).2.length
      = 1 ∧
    (lookupStore
        (addSnippet dt0 (addSnippet dt0 [] "a" none none).2 "b" none none).2
        (genId dt0)).map SnippetRecord.command
      = some "b" := by
  decide

/-- C6 (counterexample): omitted fields are not always left unchanged.
Starting from the normalized demo store, `update_snippet` itself persists
the raw record `recRaw` (command `" ls "`, tags `["a","a","b"]`); a
subsequent update supplying only tags rewrites the omitted command to
`"ls"`, and an update supplying only a description rewrites the omitted
tags to `["a","b"]` — because the update path reconstructs the snippet via
`from_dict`, which re-runs `__post_init__` on the stored values. -/
theorem updateSnippet_rewrites_omitted_counterexample :
    (updateSnippet dt0 demoStore "i" (some " ls ") none
        (some ["a", "a", "b"])).2.1 = [("i", recRaw)] ∧
    recRaw.command = " ls " ∧ recRaw.tags = ["a", "a", "b"] ∧
    (updateSnippet dt1 [("i", recRaw)] "i" none none (some ["b"])).1
      = true ∧
    (lookupStore (updateSnippet dt1 [("i", recRaw)] "i" none none
        (some ["b"])).2.1 "i").map SnippetRecord.command = some "ls" ∧
    some "ls" ≠ some " ls " ∧
    (lookupStore (updateSnippet dt1 [("i", recRaw)] "i" none
        (some "d") none).2.1 "i").map SnippetRecord.tags
      = some ["a", "b"] ∧
    some ["a", "b"] ≠ some (["a", "a", "b"] : List String) := by
  decide

/-- C6 (amended): `update_snippet` on an existing ID overwrites exactly
the supplied fields, verbatim; each omitted field is replaced by the
load-time normalization of its stored value (hence unchanged precisely
when that value is already normalized, as records written by
`add_snippet` are); `created_at` is preserved when present in the record;
`updated_at` is refreshed to the current reading, which is at least the
prior one when the clock is monotone. -/
theorem updateSnippet_overwrites_supplied_normalizes_omitted
    (now : DateTime) (st : Store) (id : String)
    (c? d? : Option String) (t? : Option (List String)) (r : SnippetRecord)
    (u : DateTime) (hr : lookupStore st id = some r)
    (hu : r.updatedAt = some u) (hle : u.key ≤ now.key) :
    ∃ r₂,
      updateSnippet now st id c? d? t? = (true, setStore st id r₂, true) ∧
      lookupStore (setStore st id r₂) id = some r₂ ∧
      r₂.command = c?.getD (cmdNorm r.command) ∧
      r₂.description
        = (match d? with | none => descNorm r.description | some d => some d) ∧
      r₂.tags = t?.getD (normTags r.tags) ∧
      r₂.createdAt = some (r.createdAt.getD now) ∧
      r₂.updatedAt = some now ∧
      u.key ≤ now.key := by
  simp only [updateSnippet, hr]
  refine ⟨_, rfl, lookupStore_setStore_self .., ?_, ?_, ?_, ?_, rfl, hle⟩ <;>
    cases c? <;> cases d? <;> cases t? <;>
      simp [toDict, fromDict, mkSnippet]

/-- Witness for C6's amended theorem: a tags-only update on the raw
record normalizes the omitted command to `"ls"` and the omitted
description to `None`, preserves `created_at`, and refreshes
`updated_at`. -/
theorem updateSnippet_overwrites_supplied_normalizes_omitted_witness :
    ∃ r₂,
      updateSnippet dt1 [("i", recRaw)] "i" none none (some ["b"])
        = (true, setStore [("i", recRaw)] "i" r₂, true) ∧
      lookupStore (setStore [("i", recRaw)] "i" r₂) "i" = some r₂ ∧
      r₂.command = (none : Option String).getD (cmdNorm recRaw.command) ∧
      r₂.description
        = (match (none : Option String) with
           | none => descNorm recRaw.description
           | some d => some d) ∧
      r₂.tags = (some ["b"]).getD (normTags recRaw.tags) ∧
      r₂.createdAt = some (recRaw.createdAt.getD dt1) ∧
      r₂.updatedAt = some dt1 ∧
      dt0.key ≤ dt1.key :=
  updateSnippet_overwrites_supplied_normalizes_omitted dt1 [("i", recRaw)]
    "i" none none (some ["b"]) recRaw dt0 (by decide) (by decide) (by decide)

/-- C7: for a snippet carrying an alias and having no parameters at all,
the alias projector emits a simple alias binding the alias name to the
`shlex.quote`d command, and evaluating that quoted word as a shell word
reproduces the stored command byte-for-byte. -/
theorem aliasDefinition_noParams_roundtrip (a snippetId : String)
    (s : ParamSnippet) (ha : s.aliasName = some a)
    (hnp : getAllParameters s = []) :
    generateAliasDefinition a snippetId s
      = "alias " ++ a ++ "=" ++ shlexQuote s.command ∧
    evalPlain (shlexQuote s.command).data = some s.command.data := by
  constructor
  · unfold generateAliasDefinition
    rw [if_pos hnp]
  · exact evalPlain_shlexQuote s.command

/-- Witness for C7 at spec scenario 2: command `echo 'hello world'` with
alias `greet` and no parameters. -/
theorem aliasDefinition_noParams_roundtrip_witness :
    generateAliasDefinition "greet" "123"
        ⟨"echo \x27hello world\x27", [], some "greet"⟩
      = "alias " ++ "greet" ++ "="
        ++ shlexQuote "echo \x27hello world\x27" ∧
    evalPlain (shlexQuote "echo \x27hello world\x27").data
      = some "echo \x27hello world\x27".data :=
  aliasDefinition_noParams_roundtrip "greet" "123"
    ⟨"echo \x27hello world\x27", [], some "greet"⟩ rfl (by decide)

/-- C8: when the backing file is absent or its content does not parse,
loading yields the empty store instead of failing, and every read path —
get, list, search, and the load step of update/delete — behaves as on an
empty store. -/
theorem loadSnippets_recovers_empty (fs : FileState)
    (h : fs = FileState.absent ∨
      ∃ e, fs = FileState.present (Except.error e)) :
    loadSnippets fs = [] ∧
    (∀ now id, getSnippetFile now fs id = none) ∧
    (∀ now, listSnippetsFile now fs = []) ∧
    (∀ now q, searchSnippetsFile now fs q = []) ∧
    (∀ now id c? d? t?,
      updateSnippetFile now fs id c? d? t? = (false, [], false)) ∧
    (∀ id, deleteSnippetFile fs id = (false, [], false)) := by
  have hl : loadSnippets fs = [] := by
    rcases h with rfl | ⟨e, rfl⟩ <;> rfl
  refine ⟨hl, ?_, ?_, ?_, ?_, ?_⟩ <;> intros <;>
    simp [getSnippetFile, listSnippetsFile, searchSnippetsFile,
      updateSnippetFile, deleteSnippetFile, hl, getSnippet, listSnippets,
      searchSnippets, updateSnippet, deleteSnippet, lookupStore]

/-- Witness for C8: a present-but-unparsable file behaves as an empty
store on every read path. -/
theorem loadSnippets_recovers_empty_witness :
    loadSnippets (FileState.present (Except.error "garbage")) = [] ∧
    getSnippetFile dt0 (FileState.present (Except.error "garbage")) "i"
      = none ∧
    listSnippetsFile dt0 (FileState.present (Except.error "garbage")) = [] ∧
    searchSnippetsFile dt0 (FileState.present (Except.error "garbage")) "ls"
      = [] ∧
    updateSnippetFile dt0 (FileState.present (Except.error "garbage")) "i"
        none none none
      = (false, [], false) ∧
    deleteSnippetFile (FileState.present (Except.error "garbage")) "i"
      = (false, [], false) := by
  obtain ⟨h1, h2, h3, h4, h5, h6⟩ :=
    loadSnippets_recovers_empty (FileState.present (Except.error "garbage"))
      (Or.inr ⟨"garbage", rfl⟩)
  exact ⟨h1, h2 dt0 "i", h3 dt0, h4 dt0 "ls", h5 dt0 "i" none none none,
    h6 "i"⟩

/-- C9: when the ID is absent, `update_snippet` and `delete_snippet`
return `False`, do not call `_save_snippets`, and leave the collection
exactly as it was. -/
theorem updateDelete_absent_id_no_write (now : DateTime) (st : Store)
    (id : String) (c? d? : Option String) (t? : Option (List String))
    (h : lookupStore st id = none) :
    updateSnippet now st id c? d? t? = (false, st, false) ∧
    deleteSnippet st id = (false, st, false) := by
  constructor
  · unfold updateSnippet
    rw [h]
  · unfold deleteSnippet
    rw [h]

/-- Witness for C9: updating or deleting a missing ID on the demo store
reports failure and writes nothing. -/
theorem updateDelete_absent_id_no_write_witness :
    updateSnippet dt1 demoStore "missing" none none none
      = (false, demoStore, false) ∧
    deleteSnippet demoStore "missing" = (false, demoStore, false) :=
  updateDelete_absent_id_no_write dt1 demoStore "missing" none none none
    (by decide)

/-- C10 (counterexample): a single `update_snippet` call with
`tags=[]` and `description=""` keeps the snippet (returns `True`) yet
empties its tags and makes the description read back as absent — the
fields can be cleared without passing `None`. -/
theorem updateSnippet_clears_fields_counterexample :
    recNorm.tags = ["x"] ∧
    (updateSnippet dt1 demoStore "i" none (some "") (some [])).1 = true ∧
    (lookupStore (updateSnippet dt1 demoStore "i" none (some "")
        (some [])).2.1 "i").map SnippetRecord.tags = some [] ∧
    (getSnippet dt2 (updateSnippet dt1 demoStore "i" none (some "")
        (some [])).2.1 "i").map Snippet.description = some none ∧
    (getSnippet dt2 (updateSnippet dt1 demoStore "i" none (some "")
        (some [])).2.1 "i").map Snippet.tags = some [] := by
  decide

/-- C10 (amended): only a `None` argument means leave-unchanged; an empty
string or empty list is a supplied value and overwrites, so one call can
clear tags and make the description read back as absent. -/
theorem updateSnippet_empty_values_clear (now now2 : DateTime) (st : Store)
    (id : String) (r : SnippetRecord) (hr : lookupStore st id = some r) :
    ∃ st₂, (updateSnippet now st id none (some "") (some [])).2.1 = st₂ ∧
      (updateSnippet now st id none (some "") (some [])).1 = true ∧
      ∃ r₂, lookupStore st₂ id = some r₂ ∧ r₂.tags = [] ∧
        r₂.description = some "" ∧
        (getSnippet now2 st₂ id).map Snippet.description = some none ∧
        (getSnippet now2 st₂ id).map Snippet.tags
          = some ([] : List String) := by
  unfold updateSnippet
  rw [hr]
  refine ⟨_, rfl, rfl, toDict _, lookupStore_setStore_self .., rfl, rfl,
    ?_, ?_⟩ <;>
  · unfold getSnippet
    rw [lookupStore_setStore_self]
    rfl

/-- Witness for C10's amended theorem on the demo store. -/
theorem updateSnippet_empty_values_clear_witness :
    ∃ st₂,
      (updateSnippet dt1 demoStore "i" none (some "") (some [])).2.1
        = st₂ ∧
      (updateSnippet dt1 demoStore "i" none (some "") (some [])).1 = true ∧
      ∃ r₂, lookupStore st₂ "i" = some r₂ ∧ r₂.tags = [] ∧
        r₂.description = some "" ∧
        (getSnippet dt2 st₂ "i").map Snippet.description = some none ∧
        (getSnippet dt2 st₂ "i").map Snippet.tags
          = some ([] : List String) :=
  updateSnippet_empty_values_clear dt1 dt2 demoStore "i" recNorm (by decide)

end Pypet
